import Mathlib

/-!
Shallow embedding of the apex-squad local-first synchronized document store
(src/app/page.tsx). JavaScript objects keyed by strings are modelled as
association lists (insertion-ordered, unique keys, as JS object literals are);
object spread update `x7b ...m, [k]: v x7d` and index assignment `m[k] = v`
replace the value of an existing key in place or append a new key at the end.
Absent object entries are Option.none. The Supabase client is an optional
remote key-value table; network nondeterminism (a failing call) is an explicit
Boolean parameter, and the absence of thrown exceptions is recorded by giving
the remote operations an Except codomain that the source construction
(error objects checked and dropped, catch handlers that swallow) keeps at ok.
-/

-- ## Association-list primitives for JS objects

def lookupA {α β : Type} [DecidableEq α] : List (α × β) → α → Option β
  | [], _ => none
  | (k', v') :: rest, k => if k' = k then some v' else lookupA rest k

-- JS object keys are unique, so replacing the first occurrence in place (or
-- appending a fresh key) is exactly the update semantics of m[k] = v.
def setA {α β : Type} [DecidableEq α] : List (α × β) → α → β → List (α × β)
  | [], k, v => [(k, v)]
  | (k', v') :: rest, k, v => if k' = k then (k, v) :: rest else (k', v') :: setA rest k v

-- ## Data model (src/app/page.tsx, PLAYERS / DayStatus / AppData)

inductive Player where
  | Potato | YX8 | Champerrin
  deriving DecidableEq, Fintype, Repr

def PLAYERS : List Player := [.Potato, .YX8, .Champerrin]

def playerName : Player → String
  | .Potato => "Potato"
  | .YX8 => "YX8"
  | .Champerrin => "Champerrin"

inductive DayStatus where
  | YES | TBD | NO
  deriving DecidableEq, Repr

-- Record<string, DayStatus>: one player, ISO date -> status
abbrev PlayerDays := List (String × DayStatus)

-- WeekDoc = Record<Player, Record<string, DayStatus>>
abbrev WeekDoc := List (Player × PlayerDays)

structure Resource where
  id : String
  title : String
  url : String
  type : String
  desc : Option String
  deriving DecidableEq, Repr

-- notes: Record<"shared" | Player, string>; the four keys are always present
-- (initialData populates all of them and updates use object spread).
structure Notes where
  shared : String
  potato : String
  yx8 : String
  champerrin : String
  deriving DecidableEq, Repr

inductive NoteTab where
  | shared
  | player (p : Player)
  deriving DecidableEq, Repr

def Notes.get (n : Notes) : NoteTab → String
  | .shared => n.shared
  | .player .Potato => n.potato
  | .player .YX8 => n.yx8
  | .player .Champerrin => n.champerrin

def Notes.set (n : Notes) : NoteTab → String → Notes
  | .shared, t => { n with shared := t }
  | .player .Potato, t => { n with potato := t }
  | .player .YX8, t => { n with yx8 := t }
  | .player .Champerrin, t => { n with champerrin := t }

-- key string used by the Notepad save handler
def noteKey : NoteTab → String
  | .shared => "notes:shared"
  | .player p => "notes:" ++ playerName p

structure AppData where
  players : List Player
  activePlayer : Player
  teamName : String
  scheduleDays : List (String × WeekDoc)
  notes : Notes
  resources : List Resource
  deriving DecidableEq, Repr

def initialData : AppData :=
  { players := PLAYERS
    activePlayer := .Potato
    teamName := "APEX Squad"
    scheduleDays := []
    notes := { shared := "", potato := "", yx8 := "", champerrin := "" }
    resources := [] }

-- ## Remote store client (getDoc / upsertDoc / supabase)

-- value column of the apex_docs table, shaped by key family (section 3 of the
-- spec: key family determines value shape)
inductive PutValue where
  | week (w : WeekDoc)
  | note (content : String)
  | name (n : String)
  | res (rs : List Resource)
  deriving DecidableEq, Repr

structure RemoteStore where
  docs : List (String × PutValue)
  deriving DecidableEq, Repr

-- JS truthiness for the env strings: undefined and "" are falsy
def truthy : Option String → Bool
  | none => false
  | some s => s ≠ ""

-- supabase = URL && ANON_KEY ? createClient(...) : null
def mkSupabase (url anonKey : Option String) (table : List (String × PutValue)) :
    Option RemoteStore :=
  if truthy url && truthy anonKey then some { docs := table } else none

-- getDoc: null client short-circuits; an errored read returns null like an
-- absent key; nothing is thrown (the error object is tested, not raised).
-- Second component: keys of remote calls actually attempted.
def getDoc (client : Option RemoteStore) (key : String) (netFail : Bool) :
    Except String (Option PutValue) × List String :=
  match client with
  | none => (.ok none, [])
  | some r => if netFail then (.ok none, [key]) else (.ok (lookupA r.docs key), [key])

-- upsertDoc: null client short-circuits; the upsert result object is ignored
-- and every call site attaches a catch handler, so failure leaves the table
-- unchanged and nothing is thrown.
def upsertDoc (client : Option RemoteStore) (key : String) (v : PutValue) (netFail : Bool) :
    Except String (Option RemoteStore) × List String :=
  match client with
  | none => (.ok none, [])
  | some r =>
      if netFail then (.ok (some r), [key])
      else (.ok (some { docs := setA r.docs key v }), [key])

-- subscribe effects begin with `if (!supabase) return;`: no channel is opened
-- without a configured client
def subscribeChannel (client : Option RemoteStore) (chName : String) : Option String :=
  match client with
  | none => none
  | some _ => some chName

-- ## Scheduler operations (src/app/page.tsx, Scheduler)

-- statusFor: data.scheduleDays?.[wk]?.[player]?.[key]
def statusFor (data : AppData) (wk : String) (player : Player) (k : String) :
    Option DayStatus :=
  (lookupA data.scheduleDays wk).bind fun week =>
    (lookupA week player).bind fun pd => lookupA pd k

-- the functional setData updater inside setStatus: copies scheduleDays, the
-- week object and the player object, assigns the one day, and writes back
def setStatusUpdate (s : AppData) (wk : String) (player : Player) (k : String)
    (status : DayStatus) : AppData :=
  let week := (lookupA s.scheduleDays wk).getD []
  let playerDays := (lookupA week player).getD []
  let week' := setA week player (setA playerDays k status)
  { s with scheduleDays := setA s.scheduleDays wk week' }

-- the cloud payload built right after setData: nextBlob is computed from the
-- component prop `data`, the state snapshot of the last render, not from the
-- freshly updated state
def setStatusPutPayload (data : AppData) (wk : String) (player : Player) (k : String)
    (status : DayStatus) : WeekDoc :=
  let weekBlob := (lookupA data.scheduleDays wk).getD []
  setA weekBlob player (setA ((lookupA weekBlob player).getD []) k status)

-- whole setStatus handler: optimistic in-memory update from the current state
-- s, one upsert of the whole-week blob computed from the render snapshot
def setStatusOp (s snapshot : AppData) (client : Option RemoteStore) (wk : String)
    (player : Player) (k : String) (status : DayStatus) (netFail : Bool) :
    AppData × (Except String (Option RemoteStore) × List String) :=
  (setStatusUpdate s wk player k status,
   upsertDoc client ("schedule:" ++ wk) (.week (setStatusPutPayload snapshot wk player k status)) netFail)

-- countsYes for one day column: for each player, week[p]?.[k] === "YES"
def countsYesAt (data : AppData) (wk : String) (k : String) : Nat :=
  let week := (lookupA data.scheduleDays wk).getD []
  (PLAYERS.filter fun p =>
    ((lookupA week p).bind fun pd => lookupA pd k) = some DayStatus.YES).length

-- ## Notepad save (src/app/page.tsx, Notepad)

def saveOp (s : AppData) (client : Option RemoteStore) (tab : NoteTab) (text : String)
    (netFail : Bool) : AppData × (Except String (Option RemoteStore) × List String) :=
  ({ s with notes := s.notes.set tab text },
   upsertDoc client (noteKey tab) (.note text) netFail)

-- ## Resources add / remove (src/app/page.tsx, Resources)

def addOp (s snapshot : AppData) (client : Option RemoteStore) (r : Resource)
    (netFail : Bool) : AppData × (Except String (Option RemoteStore) × List String) :=
  ({ s with resources := r :: s.resources },
   upsertDoc client "resources" (.res (r :: snapshot.resources)) netFail)

def removeOp (s snapshot : AppData) (client : Option RemoteStore) (rid : String)
    (netFail : Bool) : AppData × (Except String (Option RemoteStore) × List String) :=
  let next := snapshot.resources.filter fun x => x.id ≠ rid
  ({ s with resources := next },
   upsertDoc client "resources" (.res next) netFail)

-- ## Export / Import (src/app/page.tsx, DataIO)

-- export serializes the full in-memory state tree as one JSON document; at the
-- level of the embedding the payload is the state tree itself
def exportData (data : AppData) : AppData := data

-- importData: on a parse failure, alert and change nothing; on success,
-- setData(json) wholesale, then push team name, resources, every week present
-- in scheduleDays, the shared note and each player note to the cloud.
-- Result: (new state, put calls in issue order, alert shown).
def importData (parsed : Option AppData) (st : AppData) :
    AppData × List (String × PutValue) × Bool :=
  match parsed with
  | none => (st, [], true)
  | some json =>
      (json,
       [("team:name", .name json.teamName), ("resources", .res json.resources)]
         ++ json.scheduleDays.map (fun p => ("schedule:" ++ p.1, PutValue.week p.2))
         ++ [("notes:shared", .note json.notes.shared)]
         ++ PLAYERS.map (fun p => ("notes:" ++ playerName p, PutValue.note (json.notes.get (.player p)))),
       false)

-- ## Change-feed event handlers

-- a postgres_changes payload row: key plus the untyped JSON value; optional
-- fields model the value?.field accesses in the handlers
inductive EventValue where
  | week (w : WeekDoc)
  | note (content : Option String)
  | name (n : Option String)
  | res (rs : Option (List Resource))
  deriving DecidableEq, Repr

structure FeedEvent where
  key : String
  value : EventValue
  deriving DecidableEq, Repr

-- Scheduler channel: row?.key === `schedule:wk` overwrites the active week
def applyScheduler (wk : String) (s : AppData) (e : FeedEvent) : AppData :=
  if e.key = "schedule:" ++ wk then
    match e.value with
    | .week w => { s with scheduleDays := setA s.scheduleDays wk w }
    | _ => s
  else s

-- Notepad channel: notes:shared, notes:<player> (content coerced by || to ""),
-- and team:name, where a falsy incoming name keeps the previous teamName
def applyNotepad (s : AppData) (e : FeedEvent) : AppData :=
  let s1 :=
    if e.key = "notes:shared" then
      match e.value with
      | .note c => { s with notes := s.notes.set .shared (c.getD "") }
      | _ => s
    else s
  let s2 := PLAYERS.foldl (fun st p =>
    if e.key = "notes:" ++ playerName p then
      match e.value with
      | .note c => { st with notes := st.notes.set (.player p) (c.getD "") }
      | _ => st
    else st) s1
  if e.key = "team:name" then
    match e.value with
    | .name n => { s2 with teamName := if n.getD "" = "" then s2.teamName else n.getD "" }
    | _ => s2
  else s2

-- Resources channel: row?.key === "resources"; (row.value || []) replaces
def applyResources (s : AppData) (e : FeedEvent) : AppData :=
  if e.key = "resources" then
    match e.value with
    | .res rs => { s with resources := rs.getD [] }
    | _ => s
  else s

-- every delivered event reaches all three mounted channel handlers
def applyEvent (wk : String) (s : AppData) (e : FeedEvent) : AppData :=
  applyResources (applyNotepad (applyScheduler wk s e) e) e

def applyEvents (wk : String) (s : AppData) (es : List FeedEvent) : AppData :=
  es.foldl (applyEvent wk) s


-- a sample populated state, used to instantiate round-trip statements
def roundTripState : AppData :=
  { initialData with
      scheduleDays := [("2025-09-29", [(Player.Potato, [("2025-10-01", DayStatus.YES)])])] }

-- ## Key-string facts

theorem scheduleKey_ne_resources (wk : String) : "schedule:" ++ wk ≠ "resources" := by
  intro h
  have h2 := congrArg String.data h
  rw [String.data_append] at h2
  simp at h2

theorem scheduleKey_ne_teamName (wk : String) : "schedule:" ++ wk ≠ "team:name" := by
  intro h
  have h2 := congrArg String.data h
  rw [String.data_append] at h2
  simp at h2

theorem scheduleKey_ne_notesShared (wk : String) : "schedule:" ++ wk ≠ "notes:shared" := by
  intro h
  have h2 := congrArg String.data h
  rw [String.data_append] at h2
  simp at h2

theorem scheduleKey_ne_notesPotato (wk : String) : "schedule:" ++ wk ≠ "notes:Potato" := by
  intro h
  have h2 := congrArg String.data h
  rw [String.data_append] at h2
  simp at h2

theorem scheduleKey_ne_notesYX8 (wk : String) : "schedule:" ++ wk ≠ "notes:YX8" := by
  intro h
  have h2 := congrArg String.data h
  rw [String.data_append] at h2
  simp at h2

theorem scheduleKey_ne_notesChamperrin (wk : String) : "schedule:" ++ wk ≠ "notes:Champerrin" := by
  intro h
  have h2 := congrArg String.data h
  rw [String.data_append] at h2
  simp at h2

theorem scheduleKey_inj : Function.Injective (fun wk => "schedule:" ++ wk) := by
  intro a b h
  dsimp at h
  have h2 := congrArg String.data h
  rw [String.data_append, String.data_append] at h2
  exact String.ext (List.append_cancel_left h2)

-- ## Association-list lemmas

theorem lookupA_setA_self {α β : Type} [DecidableEq α] (m : List (α × β)) (k : α) (v : β) :
    lookupA (setA m k v) k = some v := by
  induction m with
  | nil => simp [setA, lookupA]
  | cons hd tl ih =>
    obtain ⟨k', v'⟩ := hd
    by_cases h : k' = k
    · simp [setA, h, lookupA]
    · simp [setA, h, lookupA, ih]

theorem lookupA_setA_ne {α β : Type} [DecidableEq α] (m : List (α × β)) (k k' : α) (v : β)
    (h : k' ≠ k) : lookupA (setA m k v) k' = lookupA m k' := by
  have h' : k ≠ k' := Ne.symm h
  induction m with
  | nil => simp [setA, lookupA, h']
  | cons hd tl ih =>
    obtain ⟨k0, v0⟩ := hd
    by_cases h0 : k0 = k
    · subst h0
      simp [setA, lookupA, h']
    · simp only [setA, if_neg h0, lookupA]
      by_cases h1 : k0 = k'
      · simp [h1]
      · simp [h1, ih]

-- ## Read-your-write and frame lemmas for setStatus

theorem statusFor_setStatusUpdate_self (s : AppData) (wk : String) (p : Player)
    (k : String) (st : DayStatus) :
    statusFor (setStatusUpdate s wk p k st) wk p k = some st := by
  unfold statusFor setStatusUpdate
  simp [lookupA_setA_self]

theorem statusFor_setStatusUpdate_frame (s : AppData) (wk wk' : String) (p p' : Player)
    (k k' : String) (st : DayStatus) (h : wk' ≠ wk ∨ p' ≠ p ∨ k' ≠ k) :
    statusFor (setStatusUpdate s wk p k st) wk' p' k' = statusFor s wk' p' k' := by
  unfold statusFor setStatusUpdate
  by_cases hwk : wk' = wk
  · subst hwk
    rw [lookupA_setA_self, Option.some_bind]
    by_cases hp : p' = p
    · subst hp
      rw [lookupA_setA_self, Option.some_bind]
      have hk : k' ≠ k := by tauto
      rw [lookupA_setA_ne _ _ _ _ hk]
      cases hsd : lookupA s.scheduleDays wk' with
      | none => simp [lookupA]
      | some w =>
        simp only [Option.getD_some, Option.some_bind]
        cases hpd : lookupA w p' with
        | none => simp [lookupA]
        | some pd => simp
    · rw [lookupA_setA_ne _ _ _ _ hp]
      cases hsd : lookupA s.scheduleDays wk' with
      | none => simp [lookupA]
      | some w => simp
  · rw [lookupA_setA_ne _ _ _ _ hwk]

-- ## Notes lemma

theorem Notes.get_set (n : Notes) (tab : NoteTab) (t : String) :
    (n.set tab t).get tab = t := by
  cases tab with
  | shared => rfl
  | player p => cases p <;> rfl

-- countsYesAt reads the week through getD, statusFor through bind; they agree
theorem weekLookup_eq_statusFor (s : AppData) (wk : String) (p : Player) (k : String) :
    ((lookupA ((lookupA s.scheduleDays wk).getD []) p).bind fun pd => lookupA pd k)
      = statusFor s wk p k := by
  unfold statusFor
  cases h : lookupA s.scheduleDays wk <;> simp [lookupA]

-- ## Single feed-event effect, per key family

theorem applyEvent_schedule (wk : String) (s : AppData) (w : WeekDoc) :
    applyEvent wk s { key := "schedule:" ++ wk, value := .week w }
      = { s with scheduleDays := setA s.scheduleDays wk w } := by
  simp [applyEvent, applyScheduler, applyNotepad, applyResources, PLAYERS, playerName,
        scheduleKey_ne_notesShared wk, scheduleKey_ne_notesPotato wk,
        scheduleKey_ne_notesYX8 wk, scheduleKey_ne_notesChamperrin wk,
        scheduleKey_ne_teamName wk, scheduleKey_ne_resources wk]

theorem applyEvent_resources (wk : String) (s : AppData) (l : List Resource) :
    applyEvent wk s { key := "resources", value := .res (some l) }
      = { s with resources := l } := by
  simp [applyEvent, applyScheduler, applyNotepad, applyResources, PLAYERS, playerName,
        Ne.symm (scheduleKey_ne_resources wk)]

theorem applyEvent_note (wk : String) (s : AppData) (tab : NoteTab) (c : String) :
    applyEvent wk s { key := noteKey tab, value := .note (some c) }
      = { s with notes := s.notes.set tab c } := by
  cases tab with
  | shared =>
    simp [applyEvent, applyScheduler, applyNotepad, applyResources, noteKey, PLAYERS,
          playerName, Ne.symm (scheduleKey_ne_notesShared wk)]
  | player p =>
    cases p with
    | Potato =>
      simp [applyEvent, applyScheduler, applyNotepad, applyResources, noteKey, PLAYERS,
            playerName, Ne.symm (scheduleKey_ne_notesPotato wk)]
    | YX8 =>
      simp [applyEvent, applyScheduler, applyNotepad, applyResources, noteKey, PLAYERS,
            playerName, Ne.symm (scheduleKey_ne_notesYX8 wk)]
    | Champerrin =>
      simp [applyEvent, applyScheduler, applyNotepad, applyResources, noteKey, PLAYERS,
            playerName, Ne.symm (scheduleKey_ne_notesChamperrin wk)]

theorem applyEvent_name (wk : String) (s : AppData) (n : String) :
    applyEvent wk s { key := "team:name", value := .name (some n) }
      = { s with teamName := if n = "" then s.teamName else n } := by
  simp [applyEvent, applyScheduler, applyNotepad, applyResources, PLAYERS, playerName,
        Ne.symm (scheduleKey_ne_teamName wk)]

theorem applyEvents_append_single (wk : String) (s : AppData) (es : List FeedEvent)
    (e : FeedEvent) :
    applyEvents wk s (es ++ [e]) = applyEvent wk (applyEvents wk s es) e := by
  unfold applyEvents
  rw [List.foldl_append]
  rfl

-- ## Claim theorems

/-- C4: for every document key and value, a local put updates the in-memory
state immediately, so a subsequent in-memory read returns the written value
regardless of whether the concurrent remote put completed, succeeded or
failed (optimistic read-your-writes), for both a day-status edit and a
notepad save. -/
theorem C4_optimistic_read_your_writes (s : AppData) (client : Option RemoteStore)
    (wk k txt : String) (p : Player) (st : DayStatus) (tab : NoteTab) (nf nf' : Bool) :
    statusFor (setStatusOp s s client wk p k st nf).1 wk p k = some st
  ∧ ((saveOp s client tab txt nf).1).notes.get tab = txt
  ∧ (setStatusOp s s client wk p k st nf).1 = (setStatusOp s s client wk p k st nf').1
  ∧ (saveOp s client tab txt nf).1 = (saveOp s client tab txt nf').1 :=
  ⟨statusFor_setStatusUpdate_self s wk p k st, Notes.get_set s.notes tab txt, rfl, rfl⟩

/-- C6: when the remote put fails, the optimistic in-memory value is not
rolled back, and no remote write or read error surfaces as an exception: the
failed upsert still returns ok, a failed read returns ok-null, and the local
state after the edit is exactly the optimistic value. -/
theorem C6_failures_swallowed_no_rollback (client : Option RemoteStore) (key : String)
    (v : PutValue) (s : AppData) (wk k txt : String) (p : Player) (st : DayStatus)
    (tab : NoteTab) :
    ((upsertDoc client key v true).1).isOk = true
  ∧ (getDoc client key true).1 = .ok none
  ∧ (setStatusOp s s client wk p k st true).1 = setStatusUpdate s wk p k st
  ∧ statusFor (setStatusOp s s client wk p k st true).1 wk p k = some st
  ∧ ((saveOp s client tab txt true).1).notes.get tab = txt := by
  refine ⟨?_, ?_, rfl, statusFor_setStatusUpdate_self s wk p k st,
          Notes.get_set s.notes tab txt⟩
  · cases client <;> rfl
  · cases client <;> rfl

/-- C7: importing content that fails to parse as JSON shows the error alert
and leaves the whole in-memory state unchanged, issuing no remote put. -/
theorem C7_malformed_import_atomic (st : AppData) :
    (importData none st).1 = st
  ∧ (importData none st).2.1 = []
  ∧ (importData none st).2.2 = true :=
  ⟨rfl, rfl, rfl⟩

/-- C8: with the remote-store URL or anon key absent (or empty), the client is
null and every operation degrades to local-cache-only mode: getDoc returns
ok-absent without a remote call, upsertDoc returns ok without a remote call,
and no subscription channel is opened; nothing throws. -/
theorem C8_missing_env_local_only (url anonKey : Option String)
    (h : ¬(truthy url = true ∧ truthy anonKey = true))
    (table : List (String × PutValue)) (key chName : String) (v : PutValue) (nf : Bool) :
    mkSupabase url anonKey table = none
  ∧ getDoc (mkSupabase url anonKey table) key nf = (.ok none, [])
  ∧ upsertDoc (mkSupabase url anonKey table) key v nf = (.ok none, [])
  ∧ subscribeChannel (mkSupabase url anonKey table) chName = none := by
  have hn : mkSupabase url anonKey table = none := by
    unfold mkSupabase
    rw [if_neg]
    intro hb
    rw [Bool.and_eq_true] at hb
    exact h hb
  exact ⟨hn, by rw [hn]; rfl, by rw [hn]; rfl, by rw [hn]; rfl⟩

theorem C8_missing_env_local_only_witness :
    (¬(truthy none = true ∧ truthy (some "anon-key") = true))
  ∧ (mkSupabase none (some "anon-key") [] = none
  ∧ getDoc (mkSupabase none (some "anon-key") []) "resources" false = (.ok none, [])
  ∧ upsertDoc (mkSupabase none (some "anon-key") []) "resources" (.note "x") false
      = (.ok none, [])
  ∧ subscribeChannel (mkSupabase none (some "anon-key") []) "apex_docs_changes" = none) :=
  ⟨by decide,
   C8_missing_env_local_only none (some "anon-key") (by decide) [] "resources"
     "apex_docs_changes" (.note "x") false⟩

/-- C9: adding a resource record, including one whose id already occurs,
stores the record exactly as supplied, prepended to the list, with the prior
entries unchanged in order and no de-duplication. -/
theorem C9_add_prepends_as_supplied (s snapshot : AppData) (client : Option RemoteStore)
    (r : Resource) (nf : Bool) :
    (addOp s snapshot client r nf).1.resources = r :: s.resources
  ∧ (addOp s snapshot client r nf).1.resources.head? = some r
  ∧ (addOp s snapshot client r nf).1.resources.tail = s.resources
  ∧ ((addOp s snapshot client r nf).1.resources.countP fun x => x.id = r.id)
      = (s.resources.countP fun x => x.id = r.id) + 1 := by
  refine ⟨rfl, rfl, rfl, ?_⟩
  show List.countP _ (r :: s.resources) = _
  rw [List.countP_cons]
  simp

/-- C10: removing an id deletes every entry whose id equals it (duplicates
included), preserves the relative order of the remaining entries, leaves every
other field of the state unchanged, and removing an absent id leaves the list
equal to itself. -/
theorem C10_remove_filters_all (s : AppData) (client : Option RemoteStore) (rid : String)
    (nf : Bool) :
    (∀ x ∈ (removeOp s s client rid nf).1.resources, x.id ≠ rid)
  ∧ (removeOp s s client rid nf).1.resources.Sublist s.resources
  ∧ (∀ x : Resource, (removeOp s s client rid nf).1.resources.count x
      = if x.id = rid then 0 else s.resources.count x)
  ∧ (removeOp s s client rid nf).1.teamName = s.teamName
  ∧ (removeOp s s client rid nf).1.notes = s.notes
  ∧ (removeOp s s client rid nf).1.scheduleDays = s.scheduleDays
  ∧ (removeOp s s client rid nf).1.activePlayer = s.activePlayer
  ∧ (removeOp s s client rid nf).1.players = s.players
  ∧ ((∀ x ∈ s.resources, x.id ≠ rid) →
      (removeOp s s client rid nf).1.resources = s.resources) := by
  refine ⟨?_, ?_, ?_, rfl, rfl, rfl, rfl, rfl, ?_⟩
  · intro x hx
    have := List.mem_filter.mp hx
    simpa using this.2
  · exact List.filter_sublist _
  · intro x
    by_cases hid : x.id = rid
    · rw [if_pos hid]
      apply List.count_eq_zero_of_not_mem
      intro hx
      have := List.mem_filter.mp hx
      simp [hid] at this
    · rw [if_neg hid]
      exact List.count_filter (by simpa using hid)
  · intro hall
    show List.filter _ _ = _
    rw [List.filter_eq_self]
    intro a ha
    simpa using hall a ha

theorem C10_remove_filters_all_witness :
    (∀ x ∈ (removeOp roundTripState roundTripState none "gone" false).1.resources,
        x.id ≠ "gone")
  ∧ (removeOp roundTripState roundTripState none "gone" false).1.resources.Sublist
      roundTripState.resources
  ∧ (∀ x : Resource,
      (removeOp roundTripState roundTripState none "gone" false).1.resources.count x
        = if x.id = "gone" then 0 else roundTripState.resources.count x)
  ∧ (removeOp roundTripState roundTripState none "gone" false).1.teamName
      = roundTripState.teamName
  ∧ (removeOp roundTripState roundTripState none "gone" false).1.notes
      = roundTripState.notes
  ∧ (removeOp roundTripState roundTripState none "gone" false).1.scheduleDays
      = roundTripState.scheduleDays
  ∧ (removeOp roundTripState roundTripState none "gone" false).1.activePlayer
      = roundTripState.activePlayer
  ∧ (removeOp roundTripState roundTripState none "gone" false).1.players
      = roundTripState.players
  ∧ ((∀ x ∈ roundTripState.resources, x.id ≠ "gone") →
      (removeOp roundTripState roundTripState none "gone" false).1.resources
        = roundTripState.resources) :=
  C10_remove_filters_all roundTripState none "gone" false

/-- C2 counterexample: two rapid successive edits share the render snapshot,
so the second put payload is computed from the stale snapshot and does not
equal the new in-memory whole-week document (it omits the first edit). -/
theorem C2_put_payload_cex :
    setStatusPutPayload initialData "2025-09-29" .YX8 "2025-10-02" .YES
      ≠ (lookupA (setStatusUpdate
            (setStatusUpdate initialData "2025-09-29" .Potato "2025-10-01" .YES)
            "2025-09-29" .YX8 "2025-10-02" .YES).scheduleDays "2025-09-29").getD [] := by
  decide

/-- C2 amended: when the render snapshot equals the current in-memory state
(no other edit intervened since the last render), the put payload equals the
new in-memory whole-week document, which carries exactly the one edited
(participant, date) field changed; across rapid successive edits the payload
is computed from the stale snapshot instead. -/
theorem C2_amended_put_payload (s : AppData) (wk : String) (p : Player) (k : String)
    (st : DayStatus) :
    setStatusPutPayload s wk p k st
      = (lookupA (setStatusUpdate s wk p k st).scheduleDays wk).getD []
  ∧ ((lookupA (setStatusPutPayload s wk p k st) p).bind fun pd => lookupA pd k) = some st
  ∧ (∀ (p' : Player) (k' : String), p' ≠ p ∨ k' ≠ k →
      ((lookupA (setStatusPutPayload s wk p k st) p').bind fun pd => lookupA pd k')
        = statusFor s wk p' k') := by
  have h1 : setStatusPutPayload s wk p k st
      = (lookupA (setStatusUpdate s wk p k st).scheduleDays wk).getD [] := by
    unfold setStatusPutPayload setStatusUpdate
    rw [lookupA_setA_self]
    rfl
  refine ⟨h1, ?_, ?_⟩
  · rw [h1, weekLookup_eq_statusFor (setStatusUpdate s wk p k st) wk p k]
    exact statusFor_setStatusUpdate_self s wk p k st
  · intro p' k' hne
    rw [h1, weekLookup_eq_statusFor (setStatusUpdate s wk p k st) wk p' k']
    exact statusFor_setStatusUpdate_frame s wk wk p p' k k' st (by tauto)

theorem C2_amended_put_payload_witness :
    (Player.YX8 ≠ Player.Potato ∨ "2025-10-02" ≠ "2025-10-01")
  ∧ ((lookupA (setStatusPutPayload initialData "2025-09-29" .Potato "2025-10-01" .YES)
        Player.YX8).bind fun pd => lookupA pd "2025-10-02")
      = statusFor initialData "2025-09-29" Player.YX8 "2025-10-02" :=
  ⟨Or.inl (by decide),
   (C2_amended_put_payload initialData "2025-09-29" .Potato "2025-10-01" .YES).2.2
     Player.YX8 "2025-10-02" (Or.inl (by decide))⟩

/-- C1 counterexample: for the team:name family the handler keeps the previous
in-memory name when the delivered payload name is falsy, so after the
sequence of events carrying names "Alpha" then "", the in-memory team name is
"Alpha", not the payload of the last-delivered event. -/
theorem C1_lww_cex :
    (applyEvents "2025-09-29" initialData
      [{ key := "team:name", value := .name (some "Alpha") },
       { key := "team:name", value := .name (some "") }]).teamName = "Alpha"
  ∧ ("Alpha" : String) ≠ "" := by
  refine ⟨?_, by decide⟩
  have h1 : applyEvents "2025-09-29" initialData
      [{ key := "team:name", value := .name (some "Alpha") },
       { key := "team:name", value := .name (some "") }]
    = applyEvent "2025-09-29"
        (applyEvent "2025-09-29" initialData
          { key := "team:name", value := .name (some "Alpha") })
        { key := "team:name", value := .name (some "") } := rfl
  rw [h1, applyEvent_name, applyEvent_name]
  simp

/-- C1 amended: processing a sequence of change-feed events for one key of
interest is last-writer-wins for the schedule:weekId, resources and notes
families (the in-memory value after processing equals the last-delivered
payload), and for team:name only when the last-delivered name is non-empty;
a falsy name keeps the previous in-memory team name. -/
theorem C1_amended_lww (wk : String) (s : AppData) :
    (∀ (ws : List WeekDoc) (w : WeekDoc),
       lookupA (applyEvents wk s ((ws ++ [w]).map fun v =>
           ({ key := "schedule:" ++ wk, value := .week v } : FeedEvent))).scheduleDays wk
         = some w)
  ∧ (∀ (ls : List (List Resource)) (l : List Resource),
       (applyEvents wk s ((ls ++ [l]).map fun v =>
           ({ key := "resources", value := .res (some v) } : FeedEvent))).resources = l)
  ∧ (∀ (tab : NoteTab) (cs : List String) (c : String),
       ((applyEvents wk s ((cs ++ [c]).map fun v =>
           ({ key := noteKey tab, value := .note (some v) } : FeedEvent))).notes.get tab)
         = c)
  ∧ (∀ (ns : List String) (n : String), n ≠ "" →
       (applyEvents wk s ((ns ++ [n]).map fun v =>
           ({ key := "team:name", value := .name (some v) } : FeedEvent))).teamName = n) := by
  refine ⟨?_, ?_, ?_, ?_⟩
  · intro ws w
    rw [List.map_append, List.map_singleton, applyEvents_append_single, applyEvent_schedule]
    exact lookupA_setA_self _ _ _
  · intro ls l
    rw [List.map_append, List.map_singleton, applyEvents_append_single, applyEvent_resources]
  · intro tab cs c
    rw [List.map_append, List.map_singleton, applyEvents_append_single, applyEvent_note]
    exact Notes.get_set _ tab c
  · intro ns n hn
    rw [List.map_append, List.map_singleton, applyEvents_append_single, applyEvent_name,
        if_neg hn]

theorem C1_amended_lww_witness :
    (("Beta" : String) ≠ "")
  ∧ (applyEvents "2025-09-29" initialData ((["Alpha"] ++ ["Beta"]).map fun v =>
        ({ key := "team:name", value := EventValue.name (some v) } : FeedEvent))).teamName
      = "Beta" :=
  ⟨by decide,
   (C1_amended_lww "2025-09-29" initialData).2.2.2 ["Alpha"] "Beta" (by decide)⟩

/-- C5: the derived per-day team-readiness count equals the number of
participants whose stored status for that date is exactly YES; concretely,
from a week with no entry for 2025-10-01, Potato setting it to YES makes the
count 1, YX8 then setting it to YES makes it 2, and no other
(participant, date) entry is altered by either edit. -/
theorem C5_team_readiness_count (s : AppData)
    (hempty : ∀ p : Player, statusFor s "2025-09-29" p "2025-10-01" = none) :
    (∀ (s' : AppData) (wk k : String),
       countsYesAt s' wk k
         = (Finset.univ.filter fun p : Player =>
             statusFor s' wk p k = some DayStatus.YES).card)
  ∧ countsYesAt (setStatusUpdate s "2025-09-29" .Potato "2025-10-01" .YES)
      "2025-09-29" "2025-10-01" = 1
  ∧ countsYesAt (setStatusUpdate (setStatusUpdate s "2025-09-29" .Potato "2025-10-01" .YES)
      "2025-09-29" .YX8 "2025-10-01" .YES) "2025-09-29" "2025-10-01" = 2
  ∧ (∀ (wk' : String) (p : Player) (k : String),
       ¬(wk' = "2025-09-29" ∧ k = "2025-10-01" ∧ (p = .Potato ∨ p = .YX8)) →
       statusFor (setStatusUpdate (setStatusUpdate s "2025-09-29" .Potato "2025-10-01" .YES)
           "2025-09-29" .YX8 "2025-10-01" .YES) wk' p k = statusFor s wk' p k) := by
  have hcard : ∀ (s' : AppData) (wk k : String),
      countsYesAt s' wk k
        = (Finset.univ.filter fun p : Player =>
            statusFor s' wk p k = some DayStatus.YES).card := by
    intro s' wk k
    have huniv : (Finset.univ : Finset Player)
        = insert Player.Potato (insert Player.YX8 {Player.Champerrin}) := by decide
    unfold countsYesAt
    simp only [PLAYERS, weekLookup_eq_statusFor]
    rw [huniv]
    by_cases h1 : statusFor s' wk Player.Potato k = some DayStatus.YES <;>
      by_cases h2 : statusFor s' wk Player.YX8 k = some DayStatus.YES <;>
        by_cases h3 : statusFor s' wk Player.Champerrin k = some DayStatus.YES <;>
          simp [List.filter, h1, h2, h3, Finset.filter_insert, Finset.filter_singleton]
  -- statuses after the first edit
  have s1P : statusFor (setStatusUpdate s "2025-09-29" .Potato "2025-10-01" .YES)
      "2025-09-29" Player.Potato "2025-10-01" = some .YES :=
    statusFor_setStatusUpdate_self s _ _ _ _
  have s1Y : statusFor (setStatusUpdate s "2025-09-29" .Potato "2025-10-01" .YES)
      "2025-09-29" Player.YX8 "2025-10-01" = none := by
    rw [statusFor_setStatusUpdate_frame s _ _ _ _ _ _ _ (Or.inr (Or.inl (by decide)))]
    exact hempty _
  have s1C : statusFor (setStatusUpdate s "2025-09-29" .Potato "2025-10-01" .YES)
      "2025-09-29" Player.Champerrin "2025-10-01" = none := by
    rw [statusFor_setStatusUpdate_frame s _ _ _ _ _ _ _ (Or.inr (Or.inl (by decide)))]
    exact hempty _
  -- statuses after the second edit
  have s2P : statusFor (setStatusUpdate
        (setStatusUpdate s "2025-09-29" .Potato "2025-10-01" .YES)
        "2025-09-29" .YX8 "2025-10-01" .YES)
      "2025-09-29" Player.Potato "2025-10-01" = some .YES := by
    rw [statusFor_setStatusUpdate_frame _ _ _ _ _ _ _ _ (Or.inr (Or.inl (by decide)))]
    exact s1P
  have s2Y : statusFor (setStatusUpdate
        (setStatusUpdate s "2025-09-29" .Potato "2025-10-01" .YES)
        "2025-09-29" .YX8 "2025-10-01" .YES)
      "2025-09-29" Player.YX8 "2025-10-01" = some .YES :=
    statusFor_setStatusUpdate_self _ _ _ _ _
  have s2C : statusFor (setStatusUpdate
        (setStatusUpdate s "2025-09-29" .Potato "2025-10-01" .YES)
        "2025-09-29" .YX8 "2025-10-01" .YES)
      "2025-09-29" Player.Champerrin "2025-10-01" = none := by
    rw [statusFor_setStatusUpdate_frame _ _ _ _ _ _ _ _ (Or.inr (Or.inl (by decide)))]
    exact s1C
  refine ⟨hcard, ?_, ?_, ?_⟩
  · rw [hcard]
    rw [show (Finset.univ : Finset Player)
        = insert Player.Potato (insert Player.YX8 {Player.Champerrin}) by decide]
    rw [Finset.filter_insert, Finset.filter_insert, Finset.filter_singleton]
    rw [if_pos s1P, if_neg (by rw [s1Y]; decide), if_neg (by rw [s1C]; decide)]
    rfl
  · rw [hcard]
    rw [show (Finset.univ : Finset Player)
        = insert Player.Potato (insert Player.YX8 {Player.Champerrin}) by decide]
    rw [Finset.filter_insert, Finset.filter_insert, Finset.filter_singleton]
    rw [if_pos s2P, if_pos s2Y, if_neg (by rw [s2C]; decide)]
    rfl
  · intro wk' p k hcond
    rw [statusFor_setStatusUpdate_frame _ _ _ _ _ _ _ _ (by
      by_cases hwk : wk' = "2025-09-29"
      · by_cases hk : k = "2025-10-01"
        · refine Or.inr (Or.inl ?_)
          intro hp
          exact hcond ⟨hwk, hk, Or.inr hp⟩
        · exact Or.inr (Or.inr hk)
      · exact Or.inl hwk)]
    rw [statusFor_setStatusUpdate_frame _ _ _ _ _ _ _ _ (by
      by_cases hwk : wk' = "2025-09-29"
      · by_cases hk : k = "2025-10-01"
        · refine Or.inr (Or.inl ?_)
          intro hp
          exact hcond ⟨hwk, hk, Or.inl hp⟩
        · exact Or.inr (Or.inr hk)
      · exact Or.inl hwk)]

theorem C5_team_readiness_count_witness :
    (∀ p : Player, statusFor initialData "2025-09-29" p "2025-10-01" = none)
  ∧ countsYesAt (setStatusUpdate initialData "2025-09-29" .Potato "2025-10-01" .YES)
      "2025-09-29" "2025-10-01" = 1
  ∧ countsYesAt (setStatusUpdate
        (setStatusUpdate initialData "2025-09-29" .Potato "2025-10-01" .YES)
        "2025-09-29" .YX8 "2025-10-01" .YES) "2025-09-29" "2025-10-01" = 2 :=
  ⟨by decide,
   (C5_team_readiness_count initialData (by decide)).2.1,
   (C5_team_readiness_count initialData (by decide)).2.2.1⟩

/-- C3: importing the exported payload with no intervening edits yields a
state deep-equal to the original with no error, and the import issues exactly
one put per document-key family present in the payload: team:name, resources,
one per week in scheduleDays, notes:shared and one per player note, each key
occurring exactly once and nothing else. -/
theorem C3_export_import_round_trip (st : AppData)
    (hw : (st.scheduleDays.map Prod.fst).Nodup) :
    (importData (some (exportData st)) st).1 = st
  ∧ (importData (some (exportData st)) st).2.2 = false
  ∧ (importData (some (exportData st)) st).2.1.map Prod.fst
      = ["team:name", "resources"]
        ++ st.scheduleDays.map (fun q => "schedule:" ++ q.1)
        ++ ["notes:shared", "notes:Potato", "notes:YX8", "notes:Champerrin"]
  ∧ ((importData (some (exportData st)) st).2.1.map Prod.fst).Nodup := by
  have hkeys : (importData (some (exportData st)) st).2.1.map Prod.fst
      = ["team:name", "resources"]
        ++ st.scheduleDays.map (fun q => "schedule:" ++ q.1)
        ++ ["notes:shared", "notes:Potato", "notes:YX8", "notes:Champerrin"] := by
    simp [importData, exportData, PLAYERS, playerName]
  have hweeks : (st.scheduleDays.map fun q => "schedule:" ++ q.1).Nodup := by
    have hmm : (st.scheduleDays.map fun q => "schedule:" ++ q.1)
        = (st.scheduleDays.map Prod.fst).map (fun wk => "schedule:" ++ wk) := by
      rw [List.map_map]
      rfl
    rw [hmm]
    exact hw.map scheduleKey_inj
  refine ⟨rfl, rfl, hkeys, ?_⟩
  rw [hkeys, List.append_assoc, List.nodup_append]
  refine ⟨by decide, ?_, ?_⟩
  · rw [List.nodup_append]
    refine ⟨hweeks, by decide, ?_⟩
    intro a ha hb
    obtain ⟨q, _, heq⟩ := List.mem_map.mp ha
    subst heq
    simp only [List.mem_cons, List.not_mem_nil, or_false] at hb
    rcases hb with h | h | h | h
    · exact scheduleKey_ne_notesShared _ h
    · exact scheduleKey_ne_notesPotato _ h
    · exact scheduleKey_ne_notesYX8 _ h
    · exact scheduleKey_ne_notesChamperrin _ h
  · intro a ha hb
    rw [List.mem_append] at hb
    simp only [List.mem_cons, List.not_mem_nil, or_false] at ha
    rcases hb with hb | hb
    · obtain ⟨q, _, heq⟩ := List.mem_map.mp hb
      rcases ha with rfl | rfl
      · exact scheduleKey_ne_teamName _ heq
      · exact scheduleKey_ne_resources _ heq
    · rcases ha with rfl | rfl <;> simp at hb

theorem C3_export_import_round_trip_witness :
    ((roundTripState.scheduleDays.map Prod.fst).Nodup)
  ∧ (importData (some (exportData roundTripState)) roundTripState).1 = roundTripState
  ∧ (importData (some (exportData roundTripState)) roundTripState).2.2 = false
  ∧ ((importData (some (exportData roundTripState)) roundTripState).2.1.map
      Prod.fst).Nodup :=
  ⟨by decide,
   (C3_export_import_round_trip roundTripState (by decide)).1,
   (C3_export_import_round_trip roundTripState (by decide)).2.1,
   (C3_export_import_round_trip roundTripState (by decide)).2.2.2⟩
